import Mathlib

/-!
Verification development for the PilotDirector media storage and delivery
subsystem.  Each definition below is a shallow embedding of a function from
the TypeScript source tree (`src/app/api/files/route.ts`,
`src/app/api/user-files/route.ts`, the upload/fetch route revisions, and
`src/lib/folder-migration.ts`).  Filesystem state is made explicit,
JavaScript numbers are modelled by `Nat`/`Int`/`ℚ` as each code path needs,
and exceptional control flow (`try`/`catch`) is modelled by explicit
branching on the failing operation.  JavaScript string operations are
re-implemented by structural recursion over `List Char` so that all
definitions evaluate inside the kernel.
-/

namespace PilotDirector

/-! ## Character-list string helpers

Structural models of the JavaScript string operations used by the routes:
`split`, `String.prototype.replace` with a literal pattern (first occurrence
only), `toLowerCase`, and `parseInt(_, 10)`. -/

/-- Splits a character list at every occurrence of `sep`, like
`"a.b".split('.')`; always returns at least one group. -/
def splitOnChar (sep : Char) : List Char → List (List Char)
  | [] => [[]]
  | c :: rest =>
    let r := splitOnChar sep rest
    if c = sep then [] :: r
    else
      match r with
      | [] => [[c]]
      | g :: gs => (c :: g) :: gs

/-- Replaces the first occurrence of `pat` by `repl`, like
`s.replace("bytes=", "")` in JavaScript (a string pattern replaces only the
first occurrence). -/
def replaceFirst (pat repl : List Char) : List Char → List Char
  | [] => []
  | c :: rest =>
    if List.isPrefixOf pat (c :: rest) then repl ++ (c :: rest).drop pat.length
    else c :: replaceFirst pat repl rest

/-- Models `parseInt(s, 10)` on the strings the routes feed it: the value of
the leading run of decimal digits, or `none` for `NaN` when there is no
leading digit. -/
def parseIntJS (l : List Char) : Option Nat :=
  let ds := l.takeWhile Char.isDigit
  if ds = [] then none
  else some (ds.foldl (fun a c => a * 10 + (c.toNat - 48)) 0)

/-- Models `s.toLowerCase()` at the character-list level. -/
def lowerData (s : String) : List Char := s.data.map Char.toLower

end PilotDirector

namespace PilotDirector

/-! ## Range-aware content serving

Embedding of the dynamic-route `GET` handler (the `[filename]` route,
`src/unnamed/part_002` lines 66-113): content-type table, `Range` header
parsing (`range.replace(/bytes=/,"").split("-")` with `parseInt`), and the
partial/full response construction.  Node.js stream semantics used by the
handler: `createReadStream(path, {start, end})` throws a synchronous
`ERR_OUT_OF_RANGE` when `end < start` (or `end < 0`), which the handler's
`catch` turns into a 500 response; a stream whose `end` lies past the end
of file simply stops at end of file. -/

/-- Video extensions recognised by the serving route; any of them is served
as `video/mp4`. -/
def videoServeExts : List (List Char) :=
  ["mp4".data, "avi".data, "mov".data, "mkv".data, "wmv".data, "flv".data]

/-- Embeds `filename.toLowerCase().split('.').pop()`: the final
dot-separated segment of the lowercased filename. -/
def extOf (filename : String) : List Char :=
  ((splitOnChar '.' (lowerData filename)).getLast?).getD []

/-- Embeds the content-type ladder of the serving handler. -/
def contentTypeFor (filename : String) : String :=
  let ext := extOf filename
  if videoServeExts.contains ext then "video/mp4"
  else if ext = "png".data then "image/png"
  else if ext = "jpg".data ∨ ext = "jpeg".data then "image/jpeg"
  else if ext = "gif".data then "image/gif"
  else "application/octet-stream"

/-- Embeds `contentType.startsWith('video/')`. -/
def isVideoType (ct : String) : Bool := List.isPrefixOf "video/".data ct.data

/-- The observable part of a response from the file-serving handler.
`contentLength` is an `Int` because the handler computes
`chunksize = (end - start) + 1` on raw JavaScript numbers, which can go
negative; `bodyLen` is the number of bytes the underlying stream actually
produces. -/
structure ServeResponse where
  status : Nat
  contentRangeStart : Option Nat
  contentRangeEnd : Option Int
  contentRangeTotal : Option Nat
  acceptRanges : Bool
  contentLength : Option Int
  bodyLen : Nat
  contentType : Option String
deriving DecidableEq

/-- The 500 response produced by the handler's `catch` block. -/
def errorResponse : ServeResponse :=
  { status := 500, contentRangeStart := none, contentRangeEnd := none,
    contentRangeTotal := none, acceptRanges := false, contentLength := none,
    bodyLen := 0, contentType := none }

/-- The 404 response (`'File not found'`). -/
def notFoundResponse : ServeResponse :=
  { status := 404, contentRangeStart := none, contentRangeEnd := none,
    contentRangeTotal := none, acceptRanges := false, contentLength := none,
    bodyLen := 0, contentType := none }

/-- Embeds `range.replace(/bytes=/, "").split("-")` with
`parseInt(parts[0], 10)` and `parts[1] ? parseInt(parts[1], 10) : default`.
The outer `none` models a `NaN` start or end (which surfaces as a
synchronous stream-constructor error, i.e. the 500 path); the inner
`Option` is `none` when `parts[1]` is absent or empty (JavaScript falsy),
in which case the handler substitutes `fileSize - 1`. -/
def parseRange (h : String) : Option (Nat × Option Nat) :=
  let parts := splitOnChar '-' (replaceFirst "bytes=".data [] h.data)
  match parseIntJS (parts.getD 0 []) with
  | none => none
  | some s =>
    let p1 := parts.getD 1 []
    if p1 = [] then some (s, none)
    else
      match parseIntJS p1 with
      | none => none
      | some e => some (s, some e)

/-- Embeds the body of the `GET` handler after the file has been located:
given the filename (for the content type), the on-disk size, and the raw
`Range` header (if any), produce the response.  Mirrors the handler
including the un-clamped `end`, the raw `chunksize`, and the
stream-constructor failure path. -/
def serveFile (filename : String) (fileSize : Nat) (rangeHeader : Option String) :
    ServeResponse :=
  let ct := contentTypeFor filename
  let full : ServeResponse :=
    { status := 200, contentRangeStart := none, contentRangeEnd := none,
      contentRangeTotal := none, acceptRanges := false,
      contentLength := some (fileSize : Int), bodyLen := fileSize,
      contentType := some ct }
  match rangeHeader with
  | none => full
  | some h =>
    if isVideoType ct then
      match parseRange h with
      | none => errorResponse
      | some (s, endOpt) =>
        let e : Int := match endOpt with
          | some v => (v : Int)
          | none => (fileSize : Int) - 1
        if e < (s : Int) then errorResponse
        else
          { status := 206, contentRangeStart := some s, contentRangeEnd := some e,
            contentRangeTotal := some fileSize, acceptRanges := true,
            contentLength := some (e - (s : Int) + 1),
            bodyLen := (min e ((fileSize : Int) - 1) - (s : Int) + 1).toNat,
            contentType := some ct }
    else full

end PilotDirector

namespace PilotDirector

/-! ## Metadata prober

Embedding of the video branch of the `user-files` route's metadata
extraction (`src/app/api/user-files/route.ts` lines 74-97): `fps` defaults
to 30, is replaced by `Math.round((num / den) * 100) / 100` when the
stream carries `r_frame_rate` `"num/den"` with a truthy positive
denominator, and `frameCount = Math.round(duration * fps)`.  JavaScript
numbers are modelled by `ℚ`; `Math.round` is floor of `x + 1/2`. -/

/-- Models `Math.round` on JavaScript numbers (half-up, ties toward
positive infinity). -/
def jsRound (q : ℚ) : ℤ := ⌊q + 1 / 2⌋

/-- The fields of an ffprobe video stream that the route destructures.
`nbFrames` is the exact frame count ffprobe reports (`nb_frames`); the
route never reads it.  `rFrameRate` is the numerator/denominator pair
obtained from splitting the rational `r_frame_rate` string on `/`. -/
structure VideoStreamInfo where
  rFrameRate : Option (Nat × Nat)
  width : Option Nat
  height : Option Nat
  nbFrames : Option Nat
deriving DecidableEq

/-- The derived metadata attached to a listed video file. -/
structure VideoMetadata where
  duration : ℚ
  width : Nat
  height : Nat
  fps : ℚ
  frameCount : ℤ
deriving DecidableEq

/-- Embeds the fps computation: default 30, else
`Math.round((num / den) * 100) / 100` guarded by `if (den && den > 0)`. -/
def computeFps (vs : VideoStreamInfo) : ℚ :=
  match vs.rFrameRate with
  | none => 30
  | some (num, den) =>
    if den ≠ 0 then ((jsRound ((num : ℚ) / (den : ℚ) * 100) : ℚ) / 100)
    else 30

/-- Embeds the whole video-metadata object construction of the route:
`duration = parseFloat(format.duration || '0')`,
`width/height = videoStream.width/height || 0`, the fps computation, and
`frameCount = Math.round(duration * fps)`. -/
def probeVideoMetadata (formatDuration : Option ℚ) (vs : VideoStreamInfo) :
    VideoMetadata :=
  let fps := computeFps vs
  let duration := formatDuration.getD 0
  { duration := duration, width := vs.width.getD 0, height := vs.height.getD 0,
    fps := fps, frameCount := jsRound (duration * fps) }

/-! ## Storage path resolution

Embedding of `ensureUserDirectory` (`src/app/api/user-files/route.ts`
lines 18-26 and the upload route): `join(process.cwd(), 'videos', userId)`
followed by `mkdir` whose errors are swallowed.  Paths are modelled as
lists of components; `path.join` concatenates the segments of its
arguments and then normalises `.` and `..` (a `..` above the absolute root
is dropped).  The function is total: it never rejects an identity and
always returns the joined path. -/

/-- Splits a path string on `/`, dropping empty components. -/
def pathComponents (s : String) : List String :=
  ((splitOnChar '/' s.data).map (fun l => (⟨l⟩ : String))).filter (fun c => c ≠ "")

/-- Normalisation pass of `path.join` for an absolute base: `.` is
dropped, `..` removes the preceding component (or is dropped at the
root). -/
def normalizeComponents (cs : List String) : List String :=
  cs.foldl
    (fun acc c =>
      if c = "." then acc
      else if c = ".." then acc.dropLast
      else acc ++ [c])
    []

/-- Embeds `ensureUserDirectory`: the directory used for `userId` is
`join(cwd, 'videos', userId)`; creation errors are swallowed, so the
function is total and never validates `userId`. -/
def ensureUserDirectory (cwd : List String) (userId : String) : List String :=
  normalizeComponents (cwd ++ ["videos"] ++ pathComponents userId)

/-- The storage root that the spec says must confine every resolved
directory. -/
def storageRoot (cwd : List String) : List String := cwd ++ ["videos"]

/-! ## Identity handling and the user-scoped endpoints

Embeddings of `getUserId` (shared by the routes), the upload `POST`
(`src/unnamed/part_001`), the per-identity listing `GET`
(`src/app/api/user-files/route.ts`), the aggregate listing `GET`
(`src/app/api/files/route.ts` lines 9-70), and the file-locating part of
the fetch `GET` (`src/unnamed/part_002` lines 13-64).  Directory contents
and their enumeration order (`readdir`) are explicit inputs; `stat` sizes
come from an oracle function. -/

/-- Embeds `getUserId`: the `x-user-id` header value if present and
truthy; `none` models the thrown `'User ID required'` error (both a
missing header and the falsy empty string throw). -/
def getUserId (hdr : Option String) : Option String :=
  match hdr with
  | none => none
  | some s => if s = "" then none else some s

/-- Looks up a user directory's file list by directory name (first match,
like a filesystem namespace). -/
def lookupFiles : List (String × List String) → String → Option (List String)
  | [], _ => none
  | (k, fsl) :: rest, key => if k = key then some fsl else lookupFiles rest key

/-- The filesystem as the fetch route sees it: user directories under
`videos/`, files directly in `videos/`, and a size oracle (`statSync`)
keyed by optional directory and filename. -/
structure ServerFS where
  dirs : List (String × List String)
  rootFiles : List String
  sizeOf : Option String → String → Nat

/-- Embeds `findFileInUserDirectories`: scan all user directories in
enumeration order and return the first one containing `fname`. -/
def findFileInUserDirectories (fs : ServerFS) (fname : String) : Option String :=
  (fs.dirs.find? (fun d => d.2.contains fname)).map (fun d => d.1)

/-- Embeds the fetch `GET` handler's file location logic plus `serveFile`:
with a valid identity the user's own directory is checked; when
`getUserId` throws (missing/empty header) the handler instead searches
every user directory; in either case an unfound file falls back to the
root `videos/` directory, and only then does the handler answer 404. -/
def fetchGET (hdr : Option String) (fname : String) (fs : ServerFS)
    (rangeHeader : Option String) : ServeResponse :=
  let fromUser : Option (Option String) :=
    match getUserId hdr with
    | some uid =>
      if ((lookupFiles fs.dirs uid).getD []).contains fname then some (some uid)
      else none
    | none => (findFileInUserDirectories fs fname).map some
  let located : Option (Option String) :=
    match fromUser with
    | some p => some p
    | none => if fs.rootFiles.contains fname then some none else none
  match located with
  | none => notFoundResponse
  | some p => serveFile fname (fs.sizeOf p fname) rangeHeader

/-- Response summary of the upload `POST`. -/
structure UploadResponse where
  status : Nat
  filename : Option String
deriving DecidableEq

/-- The MIME allow-list of the upload route. -/
def allowedUploadTypes : List String :=
  ["video/mp4", "video/avi", "video/mov", "video/mkv", "video/wmv",
   "video/webm", "video/quicktime",
   "image/png", "image/jpeg", "image/jpg", "image/gif", "image/bmp",
   "image/tiff", "image/webp"]

/-- Characters kept by the upload route's sanitiser regex
`[^a-zA-Z0-9.-]`. -/
def isSafeFilenameChar (c : Char) : Bool := c.isAlphanum || c = '.' || c = '-'

/-- Embeds `file.name.replace(/[^a-zA-Z0-9.-]/g, '_')`. -/
def sanitizeFilename (s : String) : String :=
  ⟨s.data.map (fun c => if isSafeFilenameChar c then c else '_')⟩

/-- Embeds the `mkdir(..., recursive)` of `ensureUserDirectory` on the
directory map: create the user's directory if absent. -/
def ensureDirEntry (dirs : List (String × List String)) (uid : String) :
    List (String × List String) :=
  match lookupFiles dirs uid with
  | some _ => dirs
  | none => dirs ++ [(uid, [])]

/-- Embeds `writeFile` of the stored name into the user's directory
(create or truncate). -/
def addFileTo : List (String × List String) → String → String →
    List (String × List String)
  | [], uid, fname => [(uid, [fname])]
  | (k, fsl) :: rest, uid, fname =>
    if k = uid then (k, if fsl.contains fname then fsl else fsl ++ [fname]) :: rest
    else (k, fsl) :: addFileTo rest uid fname

/-- Embeds the upload `POST` handler: identity check, directory creation,
payload presence check, MIME allow-list, timestamp-prefixed sanitised
name, write.  A missing/empty identity throws before any other step and
the outer `catch` answers 500. -/
def uploadPOST (hdr : Option String) (file : Option (String × String)) (now : Nat)
    (dirs : List (String × List String)) :
    UploadResponse × List (String × List String) :=
  match getUserId hdr with
  | none => (⟨500, none⟩, dirs)
  | some uid =>
    let dirs1 := ensureDirEntry dirs uid
    match file with
    | none => (⟨400, none⟩, dirs1)
    | some (fname, ftype) =>
      if allowedUploadTypes.contains ftype then
        let stored := Nat.repr now ++ "_" ++ sanitizeFilename fname
        (⟨200, some stored⟩, addFileTo dirs1 uid stored)
      else (⟨400, none⟩, dirs1)

/-- A listed file record (the JSON field `type` is called `kind` here). -/
structure FileRecord where
  name : String
  kind : String
  size : Nat
deriving DecidableEq

/-- Extension allow-lists of the per-identity listing route. -/
def videoListExtsUser : List String :=
  [".mp4", ".avi", ".mov", ".mkv", ".wmv", ".flv", ".webm",
   ".m4v", ".3gp", ".ogv", ".ts", ".mts", ".m2ts", ".vob",
   ".asf", ".rm", ".rmvb", ".divx", ".xvid", ".f4v", ".mpg",
   ".mpeg", ".m1v", ".m2v", ".mpe", ".mpv", ".mp2", ".mxf"]

/-- Image extension allow-list of the per-identity listing route. -/
def imageListExtsUser : List String :=
  [".png", ".jpg", ".jpeg", ".gif", ".bmp", ".tiff", ".tif",
   ".webp", ".svg", ".ico", ".psd", ".raw", ".cr2", ".nef",
   ".arw", ".dng", ".orf", ".rw2", ".pef", ".srw", ".x3f"]

/-- Extension allow-lists of the aggregate listing route. -/
def videoListExtsRoot : List String := [".mp4", ".avi", ".mov", ".mkv", ".wmv", ".flv"]

/-- Image extension allow-list of the aggregate listing route. -/
def imageListExtsRoot : List String := [".png", ".jpg", ".jpeg", ".gif", ".bmp", ".tiff"]

/-- Embeds `exts.some(ext => file.toLowerCase().endsWith(ext))`. -/
def hasExtIn (exts : List String) (f : String) : Bool :=
  exts.any (fun e => List.isSuffixOf e.data (lowerData f))

/-- Lexicographic comparison of character lists by code point; the model
of the `localeCompare`-based ascending name order used by the aggregate
listing's sort. -/
def charListLe : List Char → List Char → Bool
  | [], _ => true
  | _ :: _, [] => false
  | a :: as, b :: bs =>
    if a.toNat < b.toNat then true
    else if b.toNat < a.toNat then false
    else charListLe as bs

/-- Ascending name order on strings (lexicographic by code point). -/
def nameLe (a b : String) : Bool := charListLe a.data b.data

/-- Embeds the per-file record construction shared by both listing routes:
`null` for files that are neither videos nor images, else name, kind and
stat size. -/
def toFileRecord (isVid isImg : String → Bool) (sizeOf : String → Nat) (f : String) :
    Option FileRecord :=
  if isVid f then some ⟨f, "video", sizeOf f⟩
  else if isImg f then some ⟨f, "image", sizeOf f⟩
  else none

/-- Embeds the per-identity listing `GET`
(`src/app/api/user-files/route.ts`): identity check, then the records of
the user's directory in `readdir` enumeration order — the route applies
no sort. -/
def userFilesGET (hdr : Option String) (enumOrder : List String)
    (sizeOf : String → Nat) : Nat × List FileRecord :=
  match getUserId hdr with
  | none => (500, [])
  | some _ =>
    (200, enumOrder.filterMap
      (toFileRecord (hasExtIn videoListExtsUser) (hasExtIn imageListExtsUser) sizeOf))

/-- Embeds the aggregate listing `GET` (`src/app/api/files/route.ts`
lines 9-70): records of the root `videos/` directory sorted by
`a.name.localeCompare(b.name)`, modelled as a stable merge sort by the
lexicographic order on names. -/
def filesGET (enumOrder : List String) (sizeOf : String → Nat) : List FileRecord :=
  List.mergeSort
    (enumOrder.filterMap
      (toFileRecord (hasExtIn videoListExtsRoot) (hasExtIn imageListExtsRoot) sizeOf))
    (fun a b => nameLe a.name b.name)

/-! ## Collision-free filename generation

Embedding of `getUniqueFilename` (`src/lib/folder-migration.ts`
lines 6-30).  A directory is modelled by the list of names it contains;
`fs.access` is existence in that list.  `path.parse` splits the extension
at the last dot, except that a dot at position 0 (a dotfile) yields an
empty extension.  The source's unbounded `while (true)` loop is modelled
with fuel `|directory| + 1`, which the pigeonhole lemmas below prove
sufficient: the fuel-exhaustion branch is unreachable. -/

/-- Index of the last `.` in a character list, if any. -/
def findLastDot : List Char → Option Nat
  | [] => none
  | c :: rest =>
    match findLastDot rest with
    | some i => some (i + 1)
    | none => if c = '.' then some 0 else none

/-- Embeds `path.parse(filename)`'s `name`/`ext` pair: split at the last
dot unless it is the leading character. -/
def splitExt (filename : String) : String × String :=
  match findLastDot filename.data with
  | some i =>
    if i = 0 then (filename, "")
    else (⟨filename.data.take i⟩, ⟨filename.data.drop i⟩)
  | none => (filename, "")

/-- The candidate name `` `${name}_${counter}${ext}` `` tried by the
collision loop. -/
def mkCandidate (name ext : String) (n : Nat) : String :=
  name ++ "_" ++ Nat.repr n ++ ext

/-- The collision loop: try `name_counter ext`, incrementing `counter`
while the candidate exists.  Fuel bounds the iteration; the caller passes
`|directory| + 1`, which always suffices. -/
def findSuffix (dir : List String) (name ext : String) : Nat → Nat → String
  | counter, 0 => mkCandidate name ext counter
  | counter, fuel + 1 =>
    let cand := mkCandidate name ext counter
    if cand ∈ dir then findSuffix dir name ext (counter + 1) fuel
    else cand

/-- Embeds `getUniqueFilename`: the requested name if free, else the
first free `name_n.ext` with `n` counting up from 1. -/
def getUniqueFilename (dir : List String) (filename : String) : String :=
  if filename ∈ dir then
    findSuffix dir (splitExt filename).1 (splitExt filename).2 1 (dir.length + 1)
  else filename

/-- Decimal digit list of `n` as printed by `Nat.repr` (the string
interpolation of the source). -/
def canonDigits (n : Nat) : List Char := Nat.toDigitsCore 10 (n + 1) n []

/-- Numeric value of a decimal digit character. -/
def digitVal (c : Char) : Nat := c.toNat - 48

/-- Decodes a decimal digit list back to the number it denotes. -/
def decodeDigits (l : List Char) : Nat :=
  l.foldl (fun a c => a * 10 + digitVal c) 0

/-! ## Identity migration engine

Embedding of `migrateAnonymousToAuthorized` (`src/lib/folder-migration.ts`
lines 32-87).  The `videos/` namespace is modelled as an association list
from folder name to entry; an entry is either a live directory (holding
its regular files — the route filters `isFile`, so non-file dirents are
not modelled) or a symbolic link to another folder.  Each filesystem call
of the source (`lstat`, `mkdir`, `readdir`, `rename`, `rmdir`, `symlink`)
is modelled separately; `readdir`/`rename` follow a symlink one hop, as
the operating system would.  I/O faults are injected through `failSet`:
`rename` throws exactly on the source files listed there, landing in the
function's `catch`, which reports `success: false` with `filesMoved: 0`. -/

/-- An entry of the `videos/` namespace. -/
inductive FsEntry where
  | live (files : List String)
  | link (target : String)
deriving DecidableEq

/-- The `videos/` namespace: folder name to entry. -/
abbrev DirMap := List (String × FsEntry)

/-- First-match lookup of a folder entry (`lstat` without following). -/
def lookupDir : DirMap → String → Option FsEntry
  | [], _ => none
  | (k, e) :: rest, key => if k = key then some e else lookupDir rest key

/-- Replaces the first entry for `key`, or appends one. -/
def setDir : DirMap → String → FsEntry → DirMap
  | [], key, e => [(key, e)]
  | (k, e0) :: rest, key, e =>
    if k = key then (k, e) :: rest else (k, e0) :: setDir rest key e

/-- Removes the entry for `key` (`rmdir`). -/
def removeDir : DirMap → String → DirMap
  | [], _ => []
  | (k0, e) :: rest, key =>
    if k0 = key then removeDir rest key else (k0, e) :: removeDir rest key

/-- One-hop symlink resolution, as the operating system applies to paths
below a symlinked directory. -/
def resolveDir (fs : DirMap) (k : String) : String :=
  match lookupDir fs k with
  | some (.link t) => t
  | _ => k

/-- Embeds `readdir`: the files of the (resolved) directory, or an error
for a missing directory. -/
def readdirFiles (fs : DirMap) (k : String) : Option (List String) :=
  match lookupDir fs (resolveDir fs k) with
  | some (.live files) => some files
  | _ => none

/-- Embeds `mkdir(..., recursive: true)`: create the folder if absent,
succeed silently otherwise. -/
def mkdirRec (fs : DirMap) (k : String) : DirMap :=
  match lookupDir fs k with
  | some _ => fs
  | none => setDir fs k (.live [])

/-- Places a file name in a directory listing (`rename` overwrites an
existing destination name). -/
def insertFile (fname : String) (files : List String) : List String :=
  if fname ∈ files then files else files ++ [fname]

/-- Embeds `rename(srcDir/srcName, dstDir/dstName)`: both directories are
resolved one hop; fails (`none`) when either directory or the source file
is missing. -/
def renameFile (fs : DirMap) (srcDir srcName dstDir dstName : String) :
    Option DirMap :=
  let sd := resolveDir fs srcDir
  let dd := resolveDir fs dstDir
  match lookupDir fs sd, lookupDir fs dd with
  | some (.live sfiles), some (.live dfiles) =>
    if srcName ∈ sfiles then
      if sd = dd then
        some (setDir fs sd (.live (insertFile dstName (sfiles.erase srcName))))
      else
        some (setDir (setDir fs sd (.live (sfiles.erase srcName))) dd
          (.live (insertFile dstName dfiles)))
    else none
  | _, _ => none

/-- Result object of the migration (`success` and `filesMoved`). -/
structure MigrationResult where
  success : Bool
  filesMoved : Nat
deriving DecidableEq

/-- The `for (const file of files)` loop of the migration: for each file
of the snapshot, compute a unique name in the destination and rename the
file into place, counting moves; a `rename` fault (injected via `failSet`)
or failure aborts the loop with the state as mutated so far. -/
def moveLoop (failSet : List String) (anonDir authDir : String) :
    List String → Nat → DirMap → Bool × Nat × DirMap
  | [], moved, fs => (true, moved, fs)
  | f :: rest, moved, fs =>
    let destFiles := (readdirFiles fs authDir).getD []
    let u := getUniqueFilename destFiles f
    if f ∈ failSet then (false, moved, fs)
    else
      match renameFile fs anonDir f authDir u with
      | none => (false, moved, fs)
      | some fs1 => moveLoop failSet anonDir authDir rest (moved + 1) fs1

/-- Embeds `migrateAnonymousToAuthorized`: short-circuit on an existing
symlink, create the authorized folder, move every file of the anonymous
folder under a collision-free name, remove the emptied folder, and leave
a symlink behind.  Any thrown error (missing folder, rename fault, or
`symlink` on a still-existing path) lands in the `catch`, which reports
`success: false` and `filesMoved: 0` while keeping all completed moves. -/
def migrateAnonymousToAuthorized (failSet : List String)
    (anonymousFolder authorizedUid : String) (fs : DirMap) :
    MigrationResult × DirMap :=
  match lookupDir fs anonymousFolder with
  | none => (⟨false, 0⟩, fs)
  | some (.link _) => (⟨true, 0⟩, fs)
  | some (.live _) =>
    let fs1 := mkdirRec fs authorizedUid
    match readdirFiles fs1 anonymousFolder with
    | none => (⟨false, 0⟩, fs1)
    | some files =>
      match moveLoop failSet anonymousFolder authorizedUid files 0 fs1 with
      | (false, _, fs2) => (⟨false, 0⟩, fs2)
      | (true, moved, fs2) =>
        let fs3 :=
          match readdirFiles fs2 anonymousFolder with
          | some [] => removeDir fs2 anonymousFolder
          | _ => fs2
        match lookupDir fs3 anonymousFolder with
        | none => (⟨true, moved⟩, setDir fs3 anonymousFolder (.link authorizedUid))
        | some _ => (⟨false, 0⟩, fs3)

end PilotDirector

namespace PilotDirector

/-! ## Theorems for claims about the content server -/

/-- C2: for a 1000-byte video file and header `Range: bytes=950-1200` the
handler does NOT clamp the end to the last byte index: it answers 206 with
`Content-Range: bytes 950-1200/1000` and `Content-Length: 251` while the
underlying stream only yields the 50 remaining bytes, contradicting the
claim that the headers are clamped to `999` and `50`. -/
theorem serveFile_overlong_range_not_clamped :
    (serveFile "clip.mp4" 1000 (some "bytes=950-1200")).status = 206 ∧
    (serveFile "clip.mp4" 1000 (some "bytes=950-1200")).contentRangeEnd = some 1200 ∧
    (serveFile "clip.mp4" 1000 (some "bytes=950-1200")).contentLength = some 251 ∧
    (serveFile "clip.mp4" 1000 (some "bytes=950-1200")).bodyLen = 50 := by
  refine ⟨by decide, by decide, by decide, by decide⟩

/-- C3: for a 1000-byte video file and header `Range: bytes=2000-` the
handler computes `end = 999 < start`, the stream constructor rejects the
range, and the `catch` block answers 500 — not 416, and with no
`Content-Range: bytes */1000` header (the handler has no 416 path at
all). -/
theorem serveFile_unsatisfiable_range_is_500 :
    (serveFile "clip.mp4" 1000 (some "bytes=2000-")).status = 500 ∧
    (serveFile "clip.mp4" 1000 (some "bytes=2000-")).status ≠ 416 ∧
    (serveFile "clip.mp4" 1000 (some "bytes=2000-")).contentRangeTotal = none := by
  refine ⟨by decide, by decide, by decide⟩

/-- C10: whenever the resolved content type is not a video type, a supplied
`Range` header is ignored: the handler returns the full content with
status 200, `Content-Length` equal to the total size, and no
`Content-Range` header (never a 206 partial response). -/
theorem serveFile_nonvideo_ignores_range (filename : String) (fileSize : Nat)
    (rangeHeader : Option String)
    (h : isVideoType (contentTypeFor filename) = false) :
    (serveFile filename fileSize rangeHeader).status = 200 ∧
    (serveFile filename fileSize rangeHeader).contentLength = some (fileSize : Int) ∧
    (serveFile filename fileSize rangeHeader).bodyLen = fileSize ∧
    (serveFile filename fileSize rangeHeader).contentRangeTotal = none := by
  unfold serveFile
  cases rangeHeader with
  | none => exact ⟨rfl, rfl, rfl, rfl⟩
  | some h' => simp [h]

/-- Witness for C10 at a concrete input: a PNG fetched with
`Range: bytes=0-2` is served whole with status 200. -/
theorem serveFile_nonvideo_ignores_range_witness :
    (serveFile "pic.png" 5 (some "bytes=0-2")).status = 200 ∧
    (serveFile "pic.png" 5 (some "bytes=0-2")).contentLength = some (5 : Int) ∧
    (serveFile "pic.png" 5 (some "bytes=0-2")).bodyLen = 5 ∧
    (serveFile "pic.png" 5 (some "bytes=0-2")).contentRangeTotal = none :=
  serveFile_nonvideo_ignores_range "pic.png" 5 (some "bytes=0-2") (by decide)

/-! ## Theorems for claims about the metadata prober -/

/-- C5 counterexample: for a probed video with duration 10 s, rational
frame rate `30000/1001`, and a reported exact frame count of 123, the
route's fps is the two-decimal rounding `29.97`, not `30000/1001`, and its
frame count is `round(duration * fps) = 300`: the reported exact frame
count never takes precedence. -/
theorem probeVideoMetadata_ignores_reported_frame_count :
    (probeVideoMetadata (some 10)
        ⟨some (30000, 1001), some 1920, some 1080, some 123⟩).fps ≠
      (30000 : ℚ) / 1001 ∧
    (probeVideoMetadata (some 10)
        ⟨some (30000, 1001), some 1920, some 1080, some 123⟩).frameCount ≠ 123 ∧
    (probeVideoMetadata (some 10)
        ⟨some (30000, 1001), some 1920, some 1080, some 123⟩).frameCount = 300 := by
  have hr : jsRound ((30000 : ℚ) / 1001 * 100) = 2997 := by
    unfold jsRound
    rw [Int.floor_eq_iff]
    constructor <;> norm_num
  have hfps : (probeVideoMetadata (some 10)
      ⟨some (30000, 1001), some 1920, some 1080, some 123⟩).fps = 2997 / 100 := by
    simp [probeVideoMetadata, computeFps, hr]
  have hfc : (probeVideoMetadata (some 10)
      ⟨some (30000, 1001), some 1920, some 1080, some 123⟩).frameCount = 300 := by
    simp only [probeVideoMetadata, Option.getD_some]
    simp [computeFps, hr]
    unfold jsRound
    rw [Int.floor_eq_iff]
    constructor <;> norm_num
  refine ⟨?_, ?_, hfc⟩
  · rw [hfps]
    norm_num
  · rw [hfc]
    norm_num

/-- C5 amended: `fps` is `num/den` rounded to two decimals when the
rational frame-rate field is present with nonzero denominator and 30
otherwise; `frameCount` is always `round(duration * fps)` — the reported
exact frame count (`nbFrames`) is never consulted — and a 10-second video
under the default fps of 30 yields `frameCount = 300`. -/
theorem probeVideoMetadata_spec (d : Option ℚ) (vs : VideoStreamInfo) :
    (probeVideoMetadata d vs).fps = computeFps vs ∧
    (vs.rFrameRate = none → computeFps vs = 30) ∧
    (∀ num, vs.rFrameRate = some (num, 0) → computeFps vs = 30) ∧
    (∀ num den, den ≠ 0 → vs.rFrameRate = some (num, den) →
      computeFps vs = (jsRound ((num : ℚ) / (den : ℚ) * 100) : ℚ) / 100) ∧
    (probeVideoMetadata d vs).frameCount = jsRound (d.getD 0 * computeFps vs) ∧
    (∀ nb, probeVideoMetadata d { vs with nbFrames := nb } = probeVideoMetadata d vs) ∧
    (∀ w h nb, (probeVideoMetadata (some 10) ⟨none, w, h, nb⟩).frameCount = 300) := by
  refine ⟨rfl, ?_, ?_, ?_, rfl, fun nb => rfl, ?_⟩
  · intro h
    simp [computeFps, h]
  · intro num h
    simp [computeFps, h]
  · intro num den hden h
    simp [computeFps, h, hden]
  · intro w h nb
    show jsRound ((10 : ℚ) * 30) = 300
    unfold jsRound
    rw [Int.floor_eq_iff]
    constructor <;> norm_num

/-- Witness for C5's amended theorem at concrete inputs: an absent
frame-rate field gives fps 30, and the 10-second default-fps video has
frame count 300 even when an exact count of 123 is reported. -/
theorem probeVideoMetadata_spec_witness :
    computeFps ⟨none, none, none, none⟩ = 30 ∧
    (probeVideoMetadata (some 10) ⟨none, none, none, some 123⟩).frameCount = 300 :=
  ⟨(probeVideoMetadata_spec (some 10) ⟨none, none, none, none⟩).2.1 rfl,
   (probeVideoMetadata_spec (some 10)
      ⟨none, none, none, some 123⟩).2.2.2.2.2.2 none none (some 123)⟩

/-! ## Theorems for claims about storage path resolution -/

/-- C7: `ensureUserDirectory` performs no validation of the identity: for
the identity `".."` it resolves (and would create) the parent of the
storage root itself, and for `"../../etc"` a sibling of the process
directory — both outside the storage root — instead of failing with
`StorageUnavailable` as the claim requires.  The embedded function is
total: the route swallows `mkdir` errors and has no rejection path. -/
theorem ensureUserDirectory_traversal_escapes :
    ensureUserDirectory ["srv", "app"] ".." = ["srv", "app"] ∧
    ¬ storageRoot ["srv", "app"] <+: ensureUserDirectory ["srv", "app"] ".." ∧
    ensureUserDirectory ["srv", "app"] "../../etc" = ["srv", "etc"] ∧
    ¬ storageRoot ["srv", "app"] <+: ensureUserDirectory ["srv", "app"] "../../etc" := by
  refine ⟨by decide, ?_, by decide, ?_⟩
  · intro h
    have hl := h.length_le
    simp [storageRoot, ensureUserDirectory, pathComponents, normalizeComponents,
      splitOnChar, lowerData] at hl
  · intro h
    have hl := h.length_le
    simp [storageRoot, ensureUserDirectory, pathComponents, normalizeComponents,
      splitOnChar, lowerData] at hl

/-! ## Theorems for claims about the user-scoped endpoints -/

/-- C8 counterexample: a fetch with NO identity header does not fail fast —
the handler searches every user directory, finds `a.mp4` in `u1`, and
serves it with status 200, reading storage without any identity. -/
theorem fetchGET_serves_without_identity :
    getUserId none = none ∧
    (fetchGET none "a.mp4" ⟨[("u1", ["a.mp4"])], [], fun _ _ => 7⟩ none).status = 200 ∧
    (fetchGET none "a.mp4" ⟨[("u1", ["a.mp4"])], [], fun _ _ => 7⟩ none).bodyLen = 7 := by
  refine ⟨rfl, by decide, by decide⟩

/-- C8 amended: upload and per-identity listing require a non-empty
identity header and fail (with the generic 500 of their `catch` blocks)
without touching the identity's storage, but fetch does not: with a
missing or empty identity header it searches all user directories (and
then the root directory) for the filename and serves the file when found,
answering 404 only when no directory holds it. -/
theorem endpoints_identity_requirements (hdr : Option String)
    (h : getUserId hdr = none) :
    (∀ file now dirs, (uploadPOST hdr file now dirs).1.status = 500 ∧
      (uploadPOST hdr file now dirs).2 = dirs) ∧
    (∀ enumOrder sizeOf, (userFilesGET hdr enumOrder sizeOf).1 = 500 ∧
      (userFilesGET hdr enumOrder sizeOf).2 = []) ∧
    (∀ fname fs dirName, findFileInUserDirectories fs fname = some dirName →
      (fetchGET hdr fname fs none).status = 200 ∧
      (fetchGET hdr fname fs none).bodyLen = fs.sizeOf (some dirName) fname) ∧
    (∀ fname fs, findFileInUserDirectories fs fname = none →
      fname ∉ fs.rootFiles →
      fetchGET hdr fname fs none = notFoundResponse) := by
  refine ⟨?_, ?_, ?_, ?_⟩
  · intro file now dirs
    simp [uploadPOST, h]
  · intro enumOrder sizeOf
    simp [userFilesGET, h]
  · intro fname fs dirName hfind
    simp [fetchGET, h, hfind, serveFile]
  · intro fname fs hfind hroot
    simp [fetchGET, h, hfind, hroot]

/-- Witness for C8's amended theorem at concrete inputs: with no header,
upload answers 500 leaving the directories unchanged, listing answers 500,
and a fetch of a file present in some user directory is served with the
file's size as body length. -/
theorem endpoints_identity_requirements_witness :
    ((uploadPOST none (some ("a.mp4", "video/mp4")) 5 []).1.status = 500 ∧
      (uploadPOST none (some ("a.mp4", "video/mp4")) 5 []).2 = []) ∧
    ((userFilesGET none ["a.mp4"] (fun _ => 3)).1 = 500 ∧
      (userFilesGET none ["a.mp4"] (fun _ => 3)).2 = []) ∧
    ((fetchGET none "a.mp4" ⟨[("u1", ["a.mp4"])], [], fun _ _ => 7⟩ none).status = 200 ∧
      (fetchGET none "a.mp4" ⟨[("u1", ["a.mp4"])], [], fun _ _ => 7⟩ none).bodyLen =
        (⟨[("u1", ["a.mp4"])], [], fun _ _ => 7⟩ : ServerFS).sizeOf (some "u1") "a.mp4") :=
  ⟨(endpoints_identity_requirements none rfl).1 (some ("a.mp4", "video/mp4")) 5 [],
   (endpoints_identity_requirements none rfl).2.1 ["a.mp4"] (fun _ => 3),
   (endpoints_identity_requirements none rfl).2.2.1 "a.mp4"
     ⟨[("u1", ["a.mp4"])], [], fun _ _ => 7⟩ "u1" (by decide)⟩

/-- Totality of the lexicographic code-point comparison. -/
theorem charListLe_total : ∀ xs ys, (charListLe xs ys || charListLe ys xs) = true := by
  intro xs
  induction xs with
  | nil => intro ys; simp [charListLe]
  | cons a as ih =>
    intro ys
    cases ys with
    | nil => simp [charListLe]
    | cons b bs =>
      by_cases h1 : a.toNat < b.toNat
      · simp [charListLe, h1]
      · by_cases h2 : b.toNat < a.toNat
        · simp [charListLe, h1, h2]
        · simpa [charListLe, h1, h2] using ih bs

/-- Transitivity of the lexicographic code-point comparison. -/
theorem charListLe_trans : ∀ xs ys zs, charListLe xs ys = true →
    charListLe ys zs = true → charListLe xs zs = true := by
  intro xs
  induction xs with
  | nil => intro ys zs h1 h2; rfl
  | cons a as ih =>
    intro ys zs h1 h2
    cases ys with
    | nil => simp [charListLe] at h1
    | cons b bs =>
      cases zs with
      | nil => simp [charListLe] at h2
      | cons c cs =>
        simp only [charListLe] at h1 h2 ⊢
        by_cases hab : a.toNat < b.toNat
        · by_cases hbc : b.toNat < c.toNat
          · simp [Nat.lt_trans hab hbc]
          · by_cases hcb : c.toNat < b.toNat
            · simp [hbc, hcb] at h2
            · have hac : a.toNat < c.toNat := by omega
              simp [hac]
        · by_cases hba : b.toNat < a.toNat
          · simp [hab, hba] at h1
          · simp only [if_neg hab, if_neg hba] at h1
            by_cases hbc : b.toNat < c.toNat
            · have hac : a.toNat < c.toNat := by omega
              simp [hac]
            · by_cases hcb : c.toNat < b.toNat
              · simp [hbc, hcb] at h2
              · simp only [if_neg hbc, if_neg hcb] at h2
                have hac : ¬ a.toNat < c.toNat := by omega
                have hca : ¬ c.toNat < a.toNat := by omega
                simp only [if_neg hac, if_neg hca]
                exact ih bs cs h1 h2

/-- C9 counterexample: the per-identity listing returns records in
directory-enumeration order, not sorted: enumeration `[b.mp4, a.mp4]`
comes back as `[b.mp4, a.mp4]`, which is not ascending by name. -/
theorem userFilesGET_not_sorted :
    ((userFilesGET (some "user1") ["b.mp4", "a.mp4"] (fun _ => 1)).2.map
        FileRecord.name) = ["b.mp4", "a.mp4"] ∧
    ¬ List.Sorted (fun a b : FileRecord => nameLe a.name b.name = true)
        (userFilesGET (some "user1") ["b.mp4", "a.mp4"] (fun _ => 1)).2 := by
  refine ⟨by decide, by decide⟩

/-- C9 amended: the aggregate listing (root `videos/` directory) is sorted
ascending by name, while the per-identity listing returns its records in
directory-enumeration order with status 200 (no sort is applied). -/
theorem listings_order (hdr : Option String) (uid : String)
    (enumOrder : List String) (sizeOf : String → Nat)
    (h : getUserId hdr = some uid) :
    List.Sorted (fun a b : FileRecord => nameLe a.name b.name = true)
      (filesGET enumOrder sizeOf) ∧
    (userFilesGET hdr enumOrder sizeOf).1 = 200 ∧
    (userFilesGET hdr enumOrder sizeOf).2 =
      enumOrder.filterMap
        (toFileRecord (hasExtIn videoListExtsUser) (hasExtIn imageListExtsUser) sizeOf) := by
  refine ⟨?_, ?_, ?_⟩
  · have htrans : ∀ a b c : FileRecord,
        (fun a b : FileRecord => nameLe a.name b.name) a b →
        (fun a b : FileRecord => nameLe a.name b.name) b c →
        (fun a b : FileRecord => nameLe a.name b.name) a c := by
      intro a b c hab hbc
      exact charListLe_trans a.name.data b.name.data c.name.data hab hbc
    have htotal : ∀ a b : FileRecord,
        ((fun a b : FileRecord => nameLe a.name b.name) a b ||
          (fun a b : FileRecord => nameLe a.name b.name) b a) = true := by
      intro a b
      exact charListLe_total a.name.data b.name.data
    have hs := List.sorted_mergeSort htrans htotal
      (enumOrder.filterMap
        (toFileRecord (hasExtIn videoListExtsRoot) (hasExtIn imageListExtsRoot) sizeOf))
    exact hs.imp (fun hab => hab)
  · simp [userFilesGET, h]
  · simp [userFilesGET, h]

/-- Witness for C9's amended theorem at a concrete input: with a valid
identity the per-identity listing answers 200 with the enumeration-order
records, and the aggregate listing of the same enumeration is sorted. -/
theorem listings_order_witness :
    List.Sorted (fun a b : FileRecord => nameLe a.name b.name = true)
      (filesGET ["b.mp4", "a.mp4"] (fun _ => 1)) ∧
    (userFilesGET (some "user1") ["b.mp4", "a.mp4"] (fun _ => 1)).1 = 200 :=
  ⟨(listings_order (some "user1") "user1" ["b.mp4", "a.mp4"] (fun _ => 1) rfl).1,
   (listings_order (some "user1") "user1" ["b.mp4", "a.mp4"] (fun _ => 1) rfl).2.1⟩

/-! ## Decimal printing is injective

`Nat.repr` (the model of JavaScript template interpolation of the counter)
is injective; this backs the pigeonhole argument that the collision loop
always terminates on a fresh name within its fuel. -/

/-- With sufficient fuel, `Nat.toDigitsCore` prepends the canonical digit
list of `n` to its accumulator. -/
theorem toDigitsCore_eq_canon (n : Nat) : ∀ fuel acc, n < fuel →
    Nat.toDigitsCore 10 fuel n acc = canonDigits n ++ acc := by
  induction n using Nat.strong_induction_on with
  | _ n ih =>
    intro fuel acc hfuel
    cases fuel with
    | zero => omega
    | succ f =>
      by_cases hz : n / 10 = 0
      · simp [Nat.toDigitsCore, canonDigits, hz]
      · have hlt : n / 10 < n := Nat.div_lt_self (by omega) (by norm_num)
        have h1 : Nat.toDigitsCore 10 (f + 1) n acc =
            Nat.toDigitsCore 10 f (n / 10) (Nat.digitChar (n % 10) :: acc) := by
          simp [Nat.toDigitsCore, hz]
        have h2 : canonDigits n =
            canonDigits (n / 10) ++ [Nat.digitChar (n % 10)] := by
          show Nat.toDigitsCore 10 (n + 1) n [] = _
          have h3 : Nat.toDigitsCore 10 (n + 1) n [] =
              Nat.toDigitsCore 10 n (n / 10) [Nat.digitChar (n % 10)] := by
            simp [Nat.toDigitsCore, hz]
          rw [h3, ih (n / 10) hlt n [Nat.digitChar (n % 10)] hlt]
        rw [h1, ih (n / 10) hlt f (Nat.digitChar (n % 10) :: acc) (by omega), h2,
          List.append_assoc]
        rfl

/-- Decomposition of the canonical digit list for multi-digit numbers. -/
theorem canonDigits_decomp (n : Nat) (h : n / 10 ≠ 0) :
    canonDigits n = canonDigits (n / 10) ++ [Nat.digitChar (n % 10)] := by
  have hlt : n / 10 < n := Nat.div_lt_self (by omega) (by norm_num)
  show Nat.toDigitsCore 10 (n + 1) n [] = _
  have h3 : Nat.toDigitsCore 10 (n + 1) n [] =
      Nat.toDigitsCore 10 n (n / 10) [Nat.digitChar (n % 10)] := by
    simp [Nat.toDigitsCore, h]
  rw [h3, toDigitsCore_eq_canon (n / 10) n [Nat.digitChar (n % 10)] hlt]

/-- Digit characters decode back to their value. -/
theorem digitVal_digitChar (d : Nat) (h : d < 10) :
    digitVal (Nat.digitChar d) = d := by
  interval_cases d <;> decide

/-- Decoding after appending one digit. -/
theorem decodeDigits_append_singleton (l : List Char) (c : Char) :
    decodeDigits (l ++ [c]) = decodeDigits l * 10 + digitVal c := by
  simp [decodeDigits, List.foldl_append]

/-- Decoding inverts canonical digit printing. -/
theorem decodeDigits_canonDigits (n : Nat) : decodeDigits (canonDigits n) = n := by
  induction n using Nat.strong_induction_on with
  | _ n ih =>
    by_cases hz : n / 10 = 0
    · have hcanon : canonDigits n = [Nat.digitChar (n % 10)] := by
        simp [canonDigits, Nat.toDigitsCore, hz]
      have hn : n < 10 := (Nat.div_eq_zero_iff (by norm_num)).mp hz
      rw [hcanon]
      have : decodeDigits [Nat.digitChar (n % 10)] = digitVal (Nat.digitChar (n % 10)) := by
        simp [decodeDigits]
      rw [this, digitVal_digitChar (n % 10) (Nat.mod_lt _ (by norm_num))]
      omega
    · have hlt : n / 10 < n := Nat.div_lt_self (by omega) (by norm_num)
      rw [canonDigits_decomp n hz, decodeDigits_append_singleton, ih (n / 10) hlt,
        digitVal_digitChar (n % 10) (Nat.mod_lt _ (by norm_num))]
      omega

/-- Canonical digit lists are injective. -/
theorem canonDigits_injective : Function.Injective canonDigits := by
  intro m n h
  have := congrArg decodeDigits h
  simpa [decodeDigits_canonDigits] using this

/-- The decimal printing used by the candidate-name interpolation is
injective. -/
theorem natRepr_injective : Function.Injective Nat.repr := by
  intro m n h
  apply canonDigits_injective
  have : (Nat.repr m).data = (Nat.repr n).data := by rw [h]
  simpa [Nat.repr, Nat.toDigits, List.asString, canonDigits] using this

/-- Candidate names with distinct counters are distinct. -/
theorem mkCandidate_injective (name ext : String) :
    Function.Injective (mkCandidate name ext) := by
  intro m n h
  apply natRepr_injective
  have hd := congrArg String.data h
  simp only [mkCandidate, String.data_append] at hd
  have hd2 : (name.data ++ ['_']) ++ ((Nat.repr m).data ++ ext.data) =
      (name.data ++ ['_']) ++ ((Nat.repr n).data ++ ext.data) := by
    simpa [List.append_assoc] using hd
  have hd3 : (Nat.repr m).data ++ ext.data = (Nat.repr n).data ++ ext.data :=
    List.append_cancel_left hd2
  have hd4 : (Nat.repr m).data = (Nat.repr n).data :=
    List.append_cancel_right hd3
  show Nat.repr m = Nat.repr n
  cases hm : Nat.repr m with
  | mk dm =>
    cases hn : Nat.repr n with
    | mk dn =>
      have hdd : dm = dn := by
        rw [hm, hn] at hd4
        exact hd4
      rw [hdd]

/-- Pigeonhole: among the first `|dir| + 1` candidate counters there is
one whose candidate name is not in `dir`. -/
theorem exists_free_candidate (dir : List String) (name ext : String) :
    ∃ k, k < dir.length + 1 ∧ mkCandidate name ext (1 + k) ∉ dir := by
  by_contra hc
  push_neg at hc
  have hsub : (Finset.range (dir.length + 1)).image
      (fun k => mkCandidate name ext (1 + k)) ⊆ dir.toFinset := by
    intro x hx
    simp only [Finset.mem_image, Finset.mem_range] at hx
    obtain ⟨k, hk, rfl⟩ := hx
    simpa [List.mem_toFinset] using hc k hk
  have hinj : Function.Injective (fun k => mkCandidate name ext (1 + k)) := by
    intro a b hab
    have := mkCandidate_injective name ext hab
    omega
  have hcard : ((Finset.range (dir.length + 1)).image
      (fun k => mkCandidate name ext (1 + k))).card = dir.length + 1 := by
    rw [Finset.card_image_of_injective _ hinj, Finset.card_range]
  have hle1 := Finset.card_le_card hsub
  have hle2 := dir.toFinset_card_le
  omega

/-- Behaviour of the collision loop under the guarantee that some
candidate within the fuel is free: it returns the first free candidate. -/
theorem findSuffix_spec (dir : List String) (name ext : String) :
    ∀ fuel c, (∃ k, k < fuel ∧ mkCandidate name ext (c + k) ∉ dir) →
      findSuffix dir name ext c fuel ∉ dir ∧
      ∃ j, findSuffix dir name ext c fuel = mkCandidate name ext (c + j) ∧
        ∀ i, i < j → mkCandidate name ext (c + i) ∈ dir := by
  intro fuel
  induction fuel with
  | zero =>
    intro c h
    obtain ⟨k, hk, _⟩ := h
    omega
  | succ f ih =>
    intro c h
    by_cases hmem : mkCandidate name ext c ∈ dir
    · have hrec : findSuffix dir name ext c (f + 1) =
          findSuffix dir name ext (c + 1) f := by
        simp [findSuffix, hmem]
      obtain ⟨k, hk, hfree⟩ := h
      have hkpos : k ≠ 0 := by
        intro h0
        rw [h0, Nat.add_zero] at hfree
        exact hfree hmem
      have hrec2 := ih (c + 1) ⟨k - 1, by omega, by
        have : c + 1 + (k - 1) = c + k := by omega
        rw [this]
        exact hfree⟩
      obtain ⟨hnot, j, hj, hall⟩ := hrec2
      refine ⟨by rw [hrec]; exact hnot, j + 1, ?_, ?_⟩
      · rw [hrec, hj]
        have : c + 1 + j = c + (j + 1) := by omega
        rw [this]
      · intro i hi
        cases i with
        | zero => simpa using hmem
        | succ i' =>
          have := hall i' (by omega)
          have heq : c + 1 + i' = c + (i' + 1) := by omega
          rw [heq] at this
          exact this
    · have hstop : findSuffix dir name ext c (f + 1) = mkCandidate name ext c := by
        simp [findSuffix, hmem]
      refine ⟨by rw [hstop]; exact hmem, 0, by rw [hstop, Nat.add_zero], ?_⟩
      intro i hi
      omega

/-- The name returned by `getUniqueFilename` never collides with an
existing file of the directory. -/
theorem getUniqueFilename_not_mem (dir : List String) (filename : String) :
    getUniqueFilename dir filename ∉ dir := by
  by_cases h : filename ∈ dir
  · simp only [getUniqueFilename, if_pos h]
    obtain ⟨k, hk, hfree⟩ :=
      exists_free_candidate dir (splitExt filename).1 (splitExt filename).2
    exact (findSuffix_spec dir (splitExt filename).1 (splitExt filename).2
      (dir.length + 1) 1 ⟨k, by omega, hfree⟩).1
  · simp only [getUniqueFilename, if_neg h]
    exact h

/-- C4: `getUniqueFilename` returns the requested name unchanged when it
is free; otherwise it returns `name_n.ext` for the smallest counter
`n ≥ 1` whose candidate is free; in all cases the returned name is
distinct from every existing file in the directory. -/
theorem getUniqueFilename_spec (dir : List String) (filename : String) :
    (filename ∉ dir → getUniqueFilename dir filename = filename) ∧
    getUniqueFilename dir filename ∉ dir ∧
    (filename ∈ dir → ∃ n, 1 ≤ n ∧
      getUniqueFilename dir filename =
        mkCandidate (splitExt filename).1 (splitExt filename).2 n ∧
      ∀ m, 1 ≤ m → m < n →
        mkCandidate (splitExt filename).1 (splitExt filename).2 m ∈ dir) := by
  refine ⟨?_, getUniqueFilename_not_mem dir filename, ?_⟩
  · intro h
    simp [getUniqueFilename, h]
  · intro h
    simp only [getUniqueFilename, if_pos h]
    obtain ⟨k, hk, hfree⟩ :=
      exists_free_candidate dir (splitExt filename).1 (splitExt filename).2
    obtain ⟨hnot, j, hj, hall⟩ := findSuffix_spec dir (splitExt filename).1
      (splitExt filename).2 (dir.length + 1) 1 ⟨k, by omega, hfree⟩
    refine ⟨1 + j, by omega, hj, ?_⟩
    intro m h1 h2
    have := hall (m - 1) (by omega)
    have heq : 1 + (m - 1) = m := by omega
    rw [heq] at this
    exact this

/-! ## Lemmas about the migration filesystem model -/

/-- Looking up the key just set yields the new entry. -/
theorem lookupDir_setDir_self (fs : DirMap) (k : String) (e : FsEntry) :
    lookupDir (setDir fs k e) k = some e := by
  induction fs with
  | nil => simp [setDir, lookupDir]
  | cons p rest ih =>
    obtain ⟨k0, e0⟩ := p
    by_cases h : k0 = k
    · simp [setDir, lookupDir, h]
    · simp [setDir, lookupDir, h, ih]

/-- Setting one key leaves other lookups unchanged. -/
theorem lookupDir_setDir_ne (fs : DirMap) (k k' : String) (e : FsEntry)
    (h : k ≠ k') : lookupDir (setDir fs k e) k' = lookupDir fs k' := by
  induction fs with
  | nil => simp [setDir, lookupDir, h]
  | cons p rest ih =>
    obtain ⟨k0, e0⟩ := p
    by_cases h0 : k0 = k
    · subst h0
      simp [setDir, lookupDir, h]
    · simp [setDir, lookupDir, h0, ih]

/-- A removed key no longer resolves. -/
theorem lookupDir_removeDir_self (fs : DirMap) (k : String) :
    lookupDir (removeDir fs k) k = none := by
  induction fs with
  | nil => simp [removeDir, lookupDir]
  | cons p rest ih =>
    obtain ⟨k0, e0⟩ := p
    by_cases h : k0 = k
    · simpa [removeDir, lookupDir, h] using ih
    · simpa [removeDir, lookupDir, h] using ih

/-- Removing one key leaves other lookups unchanged. -/
theorem lookupDir_removeDir_ne (fs : DirMap) (k k' : String) (h : k ≠ k') :
    lookupDir (removeDir fs k) k' = lookupDir fs k' := by
  induction fs with
  | nil => simp [removeDir, lookupDir]
  | cons p rest ih =>
    obtain ⟨k0, e0⟩ := p
    by_cases h0 : k0 = k
    · subst h0
      have hne2 : ¬ k0 = k' := h
      simp [removeDir, lookupDir, hne2, ih]
    · by_cases h1 : k0 = k'
      · have hk2 : ¬ k' = k := fun hh => h hh.symm
        subst h1
        simp [removeDir, lookupDir, hk2]
      · simp [removeDir, lookupDir, h0, h1, ih]

/-- One step of the move loop: with the anonymous directory holding
`f :: rest` and the authorized directory live, the `rename` succeeds and
produces the expected directory states. -/
theorem renameFile_step (fs : DirMap) (anon auth f : String)
    (rest B : List String) (hne : anon ≠ auth)
    (hanon : lookupDir fs anon = some (.live (f :: rest)))
    (hauth : lookupDir fs auth = some (.live B)) :
    renameFile fs anon f auth (getUniqueFilename B f) =
      some (setDir (setDir fs anon (.live rest)) auth
        (.live (B ++ [getUniqueFilename B f]))) := by
  have hra : resolveDir fs anon = anon := by simp [resolveDir, hanon]
  have hrb : resolveDir fs auth = auth := by simp [resolveDir, hauth]
  have huB : getUniqueFilename B f ∉ B := getUniqueFilename_not_mem B f
  simp [renameFile, hra, hrb, hanon, hauth, hne, insertFile, huB,
    List.erase_cons_head]

/-- The move loop with no injected faults moves every file of the
snapshot, emptying the anonymous directory and growing the authorized one
by one file per move. -/
theorem moveLoop_success (anon auth : String) (hne : anon ≠ auth) :
    ∀ (files : List String) (fs : DirMap) (B : List String) (moved : Nat),
      lookupDir fs anon = some (.live files) →
      lookupDir fs auth = some (.live B) →
      ∃ fs2 B2,
        moveLoop [] anon auth files moved fs = (true, moved + files.length, fs2) ∧
        lookupDir fs2 anon = some (.live []) ∧
        lookupDir fs2 auth = some (.live B2) ∧
        B2.length = B.length + files.length := by
  intro files
  induction files with
  | nil =>
    intro fs B moved hanon hauth
    exact ⟨fs, B, by simp [moveLoop], hanon, hauth, by simp⟩
  | cons f rest ih =>
    intro fs B moved hanon hauth
    have hdest : readdirFiles fs auth = some B := by
      simp [readdirFiles, resolveDir, hauth]
    have hstep := renameFile_step fs anon auth f rest B hne hanon hauth
    have hanon1 : lookupDir (setDir (setDir fs anon (.live rest)) auth
        (.live (B ++ [getUniqueFilename B f]))) anon = some (.live rest) := by
      rw [lookupDir_setDir_ne _ _ _ _ (fun hh => hne hh.symm),
        lookupDir_setDir_self]
    have hauth1 : lookupDir (setDir (setDir fs anon (.live rest)) auth
        (.live (B ++ [getUniqueFilename B f]))) auth =
        some (.live (B ++ [getUniqueFilename B f])) := lookupDir_setDir_self _ _ _
    obtain ⟨fs2, B2, hloop, h1, h2, h3⟩ :=
      ih (setDir (setDir fs anon (.live rest)) auth
        (.live (B ++ [getUniqueFilename B f]))) (B ++ [getUniqueFilename B f])
        (moved + 1) hanon1 hauth1
    refine ⟨fs2, B2, ?_, h1, h2, by
      simp only [List.length_append, List.length_cons, List.length_nil] at h3 ⊢
      omega⟩
    have hrun : moveLoop [] anon auth (f :: rest) moved fs =
        moveLoop [] anon auth rest (moved + 1)
          (setDir (setDir fs anon (.live rest)) auth
            (.live (B ++ [getUniqueFilename B f]))) := by
      simp [moveLoop, hdest, hstep]
    rw [hrun, hloop]
    have : moved + 1 + rest.length = moved + (f :: rest).length := by
      simp
      omega
    rw [this]

/-- The move loop aborts at the first faulted file, leaving the earlier
files moved (the authorized directory grew by one file per completed move)
and the faulted file with all later files still in the anonymous
directory. -/
theorem moveLoop_partial (anon auth : String) (failSet : List String)
    (bad : String) (post : List String) (hne : anon ≠ auth)
    (hbad : bad ∈ failSet) :
    ∀ (pre : List String) (fs : DirMap) (B : List String) (moved : Nat),
      lookupDir fs anon = some (.live (pre ++ bad :: post)) →
      lookupDir fs auth = some (.live B) →
      (∀ p ∈ pre, p ∉ failSet) →
      ∃ fs2 B2,
        moveLoop failSet anon auth (pre ++ bad :: post) moved fs =
          (false, moved + pre.length, fs2) ∧
        lookupDir fs2 anon = some (.live (bad :: post)) ∧
        lookupDir fs2 auth = some (.live B2) ∧
        B2.length = B.length + pre.length := by
  intro pre
  induction pre with
  | nil =>
    intro fs B moved hanon hauth hpre
    refine ⟨fs, B, ?_, by simpa using hanon, hauth, by simp⟩
    simp [moveLoop, hbad]
  | cons p pre' ih =>
    intro fs B moved hanon hauth hpre
    have hanon' : lookupDir fs anon = some (.live (p :: (pre' ++ bad :: post))) := by
      simpa using hanon
    have hdest : readdirFiles fs auth = some B := by
      simp [readdirFiles, resolveDir, hauth]
    have hstep := renameFile_step fs anon auth p (pre' ++ bad :: post) B hne hanon' hauth
    have hpf : p ∉ failSet := hpre p (by simp)
    have hanon1 : lookupDir (setDir (setDir fs anon (.live (pre' ++ bad :: post))) auth
        (.live (B ++ [getUniqueFilename B p]))) anon =
        some (.live (pre' ++ bad :: post)) := by
      rw [lookupDir_setDir_ne _ _ _ _ (fun hh => hne hh.symm),
        lookupDir_setDir_self]
    have hauth1 : lookupDir (setDir (setDir fs anon (.live (pre' ++ bad :: post))) auth
        (.live (B ++ [getUniqueFilename B p]))) auth =
        some (.live (B ++ [getUniqueFilename B p])) := lookupDir_setDir_self _ _ _
    obtain ⟨fs2, B2, hloop, h1, h2, h3⟩ :=
      ih (setDir (setDir fs anon (.live (pre' ++ bad :: post))) auth
        (.live (B ++ [getUniqueFilename B p]))) (B ++ [getUniqueFilename B p])
        (moved + 1) hanon1 hauth1 (fun q hq => hpre q (by simp [hq]))
    refine ⟨fs2, B2, ?_, h1, h2, by
      simp only [List.length_append, List.length_cons, List.length_nil] at h3 ⊢
      omega⟩
    have hrun : moveLoop failSet anon auth ((p :: pre') ++ bad :: post) moved fs =
        moveLoop failSet anon auth (pre' ++ bad :: post) (moved + 1)
          (setDir (setDir fs anon (.live (pre' ++ bad :: post))) auth
            (.live (B ++ [getUniqueFilename B p]))) := by
      simp [moveLoop, hdest, hstep, hpf]
    rw [hrun, hloop]
    have : moved + 1 + pre'.length = moved + (p :: pre').length := by
      simp
      omega
    rw [this]

/-- A fault-free migration of a live anonymous directory moves all its
files, reports their count with success, and replaces the anonymous
directory by a symlink to the authorized identity. -/
theorem migrate_success (anon auth : String) (fs : DirMap) (L : List String)
    (hanon : lookupDir fs anon = some (.live L))
    (hauth : lookupDir fs auth = none ∨ ∃ D, lookupDir fs auth = some (.live D))
    (hne : anon ≠ auth) :
    (migrateAnonymousToAuthorized [] anon auth fs).1 = ⟨true, L.length⟩ ∧
    lookupDir (migrateAnonymousToAuthorized [] anon auth fs).2 anon =
      some (.link auth) := by
  obtain ⟨B, hB⟩ : ∃ B, lookupDir (mkdirRec fs auth) auth = some (.live B) := by
    rcases hauth with h | ⟨D, hD⟩
    · exact ⟨[], by simp [mkdirRec, h, lookupDir_setDir_self]⟩
    · exact ⟨D, by simp [mkdirRec, hD]⟩
  have hanonB : lookupDir (mkdirRec fs auth) anon = some (.live L) := by
    rcases hauth with h | ⟨D, hD⟩
    · simp [mkdirRec, h, lookupDir_setDir_ne _ _ _ _ (fun hh => hne hh.symm), hanon]
    · simp [mkdirRec, hD, hanon]
  have hread : readdirFiles (mkdirRec fs auth) anon = some L := by
    simp [readdirFiles, resolveDir, hanonB]
  obtain ⟨fs2, B2, hloop, h1, h2, h3⟩ :=
    moveLoop_success anon auth hne L (mkdirRec fs auth) B 0 hanonB hB
  have hread2 : readdirFiles fs2 anon = some [] := by
    simp [readdirFiles, resolveDir, h1]
  have hrm : lookupDir (removeDir fs2 anon) anon = none :=
    lookupDir_removeDir_self fs2 anon
  have hfinal : migrateAnonymousToAuthorized [] anon auth fs =
      (⟨true, 0 + L.length⟩,
        setDir (removeDir fs2 anon) anon (.link auth)) := by
    simp [migrateAnonymousToAuthorized, hanon, hread, hloop, hread2, hrm]
  rw [hfinal]
  refine ⟨by simp, ?_⟩
  exact lookupDir_setDir_self _ _ _

/-- Witness for C4 at concrete inputs: `clip.mp4` colliding with
`clip.mp4` and `clip_1.mp4` yields some least free suffix candidate, and a
free requested name is returned unchanged. -/
theorem getUniqueFilename_spec_witness :
    getUniqueFilename ["clip.mp4", "clip_1.mp4"] "clip.mp4" ∉
      ["clip.mp4", "clip_1.mp4"] ∧
    (∃ n, 1 ≤ n ∧
      getUniqueFilename ["clip.mp4", "clip_1.mp4"] "clip.mp4" =
        mkCandidate (splitExt "clip.mp4").1 (splitExt "clip.mp4").2 n ∧
      ∀ m, 1 ≤ m → m < n →
        mkCandidate (splitExt "clip.mp4").1 (splitExt "clip.mp4").2 m ∈
          ["clip.mp4", "clip_1.mp4"]) ∧
    getUniqueFilename ["a.mp4"] "b.mp4" = "b.mp4" :=
  ⟨(getUniqueFilename_spec ["clip.mp4", "clip_1.mp4"] "clip.mp4").2.1,
   (getUniqueFilename_spec ["clip.mp4", "clip_1.mp4"] "clip.mp4").2.2 (by decide),
   (getUniqueFilename_spec ["a.mp4"] "b.mp4").1 (by decide)⟩

/-! ## Theorems for claims about the migration engine -/

/-- The idempotent short-circuit: migrating a folder that is already a
symlink is a successful no-op. -/
theorem migrate_symlink_noop (anon auth t : String) (fs : DirMap)
    (h : lookupDir fs anon = some (.link t)) :
    migrateAnonymousToAuthorized [] anon auth fs = (⟨true, 0⟩, fs) := by
  simp [migrateAnonymousToAuthorized, h]

/-- C1: if the old identity's directory is already a symlink, migration
returns success with `filesMoved = 0` and changes nothing; consequently,
for a live old directory holding at least one file (fault-free run,
distinct identities, destination absent or live), the first invocation
succeeds with `filesMoved > 0` and an immediately following second
invocation returns `filesMoved = 0` and leaves the state unchanged. -/
theorem migrate_idempotent (anon auth : String) (fs : DirMap) :
    (∀ t, lookupDir fs anon = some (.link t) →
      migrateAnonymousToAuthorized [] anon auth fs = (⟨true, 0⟩, fs)) ∧
    (∀ L, lookupDir fs anon = some (.live L) → L ≠ [] → anon ≠ auth →
      (lookupDir fs auth = none ∨ ∃ D, lookupDir fs auth = some (.live D)) →
      0 < (migrateAnonymousToAuthorized [] anon auth fs).1.filesMoved ∧
      (migrateAnonymousToAuthorized [] anon auth fs).1.success = true ∧
      (migrateAnonymousToAuthorized [] anon auth
        (migrateAnonymousToAuthorized [] anon auth fs).2).1 = ⟨true, 0⟩ ∧
      (migrateAnonymousToAuthorized [] anon auth
        (migrateAnonymousToAuthorized [] anon auth fs).2).2 =
        (migrateAnonymousToAuthorized [] anon auth fs).2) := by
  constructor
  · intro t ht
    exact migrate_symlink_noop anon auth t fs ht
  · intro L hanon hL hne hauth
    obtain ⟨h1, h2⟩ := migrate_success anon auth fs L hanon hauth hne
    have hsecond := migrate_symlink_noop anon auth auth
      (migrateAnonymousToAuthorized [] anon auth fs).2 h2
    refine ⟨?_, ?_, ?_, ?_⟩
    · rw [h1]
      simpa using List.length_pos.mpr hL
    · rw [h1]
    · rw [hsecond]
    · rw [hsecond]

/-- Witness for C1 at concrete inputs: migrating an already-symlinked
folder is a no-op with count 0; a live folder with one file yields a
positive count on the first call and count 0 on the second. -/
theorem migrate_idempotent_witness :
    migrateAnonymousToAuthorized [] "browser-y" "user2"
      [("browser-y", FsEntry.link "user2")] =
      (⟨true, 0⟩, [("browser-y", FsEntry.link "user2")]) ∧
    0 < (migrateAnonymousToAuthorized [] "browser-x" "user1"
      [("browser-x", FsEntry.live ["a.mp4"])]).1.filesMoved ∧
    (migrateAnonymousToAuthorized [] "browser-x" "user1"
      (migrateAnonymousToAuthorized [] "browser-x" "user1"
        [("browser-x", FsEntry.live ["a.mp4"])]).2).1 = ⟨true, 0⟩ := by
  refine ⟨(migrate_idempotent "browser-y" "user2"
      [("browser-y", FsEntry.link "user2")]).1 "user2" (by decide), ?_, ?_⟩
  · exact ((migrate_idempotent "browser-x" "user1"
      [("browser-x", FsEntry.live ["a.mp4"])]).2 ["a.mp4"] (by decide) (by decide)
      (by decide) (Or.inl (by decide))).1
  · exact ((migrate_idempotent "browser-x" "user1"
      [("browser-x", FsEntry.live ["a.mp4"])]).2 ["a.mp4"] (by decide) (by decide)
      (by decide) (Or.inl (by decide))).2.2.1

/-- C6 counterexample: with files `a.mp4, b.mp4` and an injected rename
fault on `b.mp4`, migration moves `a.mp4` into the destination and then
aborts — but the `catch` block reports `filesMoved = 0`, not the partial
count 1 the claim requires. -/
theorem migrate_failure_counterexample :
    (migrateAnonymousToAuthorized ["b.mp4"] "browser-x" "user1"
      [("browser-x", FsEntry.live ["a.mp4", "b.mp4"])]).1 = ⟨false, 0⟩ ∧
    lookupDir (migrateAnonymousToAuthorized ["b.mp4"] "browser-x" "user1"
      [("browser-x", FsEntry.live ["a.mp4", "b.mp4"])]).2 "user1" =
      some (FsEntry.live ["a.mp4"]) ∧
    lookupDir (migrateAnonymousToAuthorized ["b.mp4"] "browser-x" "user1"
      [("browser-x", FsEntry.live ["a.mp4", "b.mp4"])]).2 "browser-x" =
      some (FsEntry.live ["b.mp4"]) := by
  refine ⟨by decide, by decide, by decide⟩

/-- C6 amended: an I/O failure in the per-file move loop aborts the
migration with `success = false` and a reported `filesMoved` of 0 (not the
partial count); the files moved before the fault remain in the
destination directory (its listing grew by one file per completed move)
while the faulted and later files remain in the old directory — no
rollback — so an immediately following fault-free re-invocation succeeds,
moving the remaining files and installing the redirect symlink. -/
theorem migrate_failure_spec (anon auth bad : String)
    (pre post D failSet : List String) (fs : DirMap)
    (hanon : lookupDir fs anon = some (.live (pre ++ bad :: post)))
    (hauth : lookupDir fs auth = some (.live D))
    (hne : anon ≠ auth)
    (hpre : ∀ p ∈ pre, p ∉ failSet)
    (hbad : bad ∈ failSet) :
    (migrateAnonymousToAuthorized failSet anon auth fs).1 = ⟨false, 0⟩ ∧
    lookupDir (migrateAnonymousToAuthorized failSet anon auth fs).2 anon =
      some (.live (bad :: post)) ∧
    (∃ B, lookupDir (migrateAnonymousToAuthorized failSet anon auth fs).2 auth =
      some (.live B) ∧ B.length = D.length + pre.length) ∧
    (migrateAnonymousToAuthorized [] anon auth
      (migrateAnonymousToAuthorized failSet anon auth fs).2).1 =
      ⟨true, (bad :: post).length⟩ ∧
    lookupDir (migrateAnonymousToAuthorized [] anon auth
      (migrateAnonymousToAuthorized failSet anon auth fs).2).2 anon =
      some (.link auth) := by
  have hmk : mkdirRec fs auth = fs := by simp [mkdirRec, hauth]
  have hread : readdirFiles fs anon = some (pre ++ bad :: post) := by
    simp [readdirFiles, resolveDir, hanon]
  obtain ⟨fs2, B2, hloop, h1, h2, h3⟩ :=
    moveLoop_partial anon auth failSet bad post hne hbad pre fs D 0 hanon hauth hpre
  have hfinal : migrateAnonymousToAuthorized failSet anon auth fs =
      (⟨false, 0⟩, fs2) := by
    simp [migrateAnonymousToAuthorized, hanon, hmk, hread, hloop]
  obtain ⟨hs1, hs2⟩ :=
    migrate_success anon auth fs2 (bad :: post) h1 (Or.inr ⟨B2, h2⟩) hne
  rw [hfinal]
  exact ⟨rfl, h1, ⟨B2, h2, by omega⟩, hs1, hs2⟩

/-- Witness for C6's amended theorem at concrete inputs: the faulted run
reports `filesMoved = 0`, and a fault-free retry succeeds moving the one
remaining file. -/
theorem migrate_failure_spec_witness :
    (migrateAnonymousToAuthorized ["b.mp4"] "browser-x" "user1"
      [("browser-x", FsEntry.live ["a.mp4", "b.mp4"]),
       ("user1", FsEntry.live [])]).1 = ⟨false, 0⟩ ∧
    (migrateAnonymousToAuthorized [] "browser-x" "user1"
      (migrateAnonymousToAuthorized ["b.mp4"] "browser-x" "user1"
        [("browser-x", FsEntry.live ["a.mp4", "b.mp4"]),
         ("user1", FsEntry.live [])]).2).1 = ⟨true, 1⟩ := by
  obtain ⟨w1, w2, w3, w4, w5⟩ := migrate_failure_spec "browser-x" "user1" "b.mp4"
    ["a.mp4"] [] [] ["b.mp4"]
    [("browser-x", FsEntry.live ["a.mp4", "b.mp4"]), ("user1", FsEntry.live [])]
    (by decide) (by decide) (by decide) (by decide) (by decide)
  exact ⟨w1, w4⟩

end PilotDirector
